import Mathlib

/-!
Verification of the chasqui TCP server framework core (dispatcher,
attendant, server) against its natural-language specification.

The development shallowly embeds the final variants of the Go source:
`attendant.go` (the channel-based Attendant with throttling and stop
classification), the labeled-break Dispatcher accept loop, and the
`BasicServer` fan-in / shutdown logic from `server.go`.

Modelling conventions:
- Machine state that the code mutates is carried explicitly in records;
  each Go method becomes a pure function returning the updated record
  together with its return value.
- Instants (`time.Now()`) and durations (`time.Duration`) are integers;
  the zero-value `time.Time{}` sentinel used by `throttleFrom` is
  modelled as `none` (a real `time.Now()` result is never the zero
  value).
- The blocking read loop is driven by an explicit trace of receive
  results: a list of successfully received messages (each carrying the
  instant `time.Now()` observed at that iteration) followed by the
  receive error that terminates the loop.  Everything the loop does is
  recorded, in program order, in a list of `LoopAction`s (status
  assignments, the `connection.Close()` call, channel sends).
- Goroutine spawning (`go attendant.readLoop()`) is modelled by a
  Boolean "spawned" flag returned by `Start`; the spawned loop is then
  run explicitly.
-/

namespace Chasqui

/-- Untyped argument values carried by messages (Go `interface{}`). -/
inductive Val
  | str (s : String)
  | int (n : Int)
  | boolean (b : Bool)
  deriving DecidableEq

/-- A wire message, per `types/message.go`: a command, positional
arguments and keyword arguments. -/
structure Message where
  command : String
  args : List Val
  kwargs : List (String × Val)
  deriving DecidableEq

/-- Go error values relevant to the core.  `netClosing` is the
`poll.ErrNetClosing` sentinel retrieved by `ErrNetClosing()`;
`opError e` is a `*net.OpError` wrapping the inner error `e`;
`other` stands for any remaining error value (I/O or decode). -/
inductive GoError
  | netClosing
  | opError (inner : GoError)
  | eof
  | errClosedPipe
  | other (code : Nat)
  deriving DecidableEq

/-- `isClosedSocketError` from `attendant.go`: the error is a
`*net.OpError` whose wrapped error is the `ErrNetClosing()` sentinel. -/
def isClosedSocketError : GoError → Bool
  | .opError .netClosing => true
  | _ => false

/-- `AttendantStatus`: New, Running, Stopped. -/
inductive AttendantStatus
  | new
  | running
  | stopped
  deriving DecidableEq

/-- `AttendantStopType`: Local, Remote, Abnormal. -/
inductive AttendantStopType
  | localStop
  | remoteStop
  | abnormalStop
  deriving DecidableEq

/-- The lifecycle errors the attendant returns. -/
inductive ChasquiError
  | attendantIsNotNew
  | attendantIsStopped
  | attendantIsAlreadyStopped
  | dispatcherAlreadyListening
  | dispatcherNotListening
  deriving DecidableEq

/-- The mutable state of an `Attendant` (final variant of
`attendant.go`).  `connClosed` records whether `connection.Close()`
has been invoked; `context` is the arbitrary key/value mapping;
`throttleFrom` is `none` exactly when the Go field holds the
zero-value `time.Time{}` sentinel. -/
structure Attendant where
  connClosed : Bool
  status : AttendantStatus
  context : List (String × Val)
  throttle : Int
  throttleFrom : Option Int
  deriving DecidableEq

/-- `NewAttendant`: negative throttles are negated to positive;
status starts New, context empty, `throttleFrom` at the sentinel. -/
def NewAttendant (throttle : Int) : Attendant :=
  { connClosed := false
    status := .new
    context := []
    throttle := if throttle < 0 then -throttle else throttle
    throttleFrom := none }

/-- `Attendant.Start`: when the status is New it spawns the read loop
goroutine (the Boolean) and returns no error; otherwise it fails with
the "not new" error and does nothing. -/
def Attendant.Start (a : Attendant) : Attendant × Bool × Option ChasquiError :=
  if a.status = .new then (a, true, none)
  else (a, false, some .attendantIsNotNew)

/-- `Attendant.Stop`: unless already Stopped, closes the owned
connection (its error is discarded) and returns no error; when already
Stopped it fails with the "already stopped" error.  Note: this method
does not itself assign the status — that is the read loop's job. -/
def Attendant.Stop (a : Attendant) : Attendant × Option ChasquiError :=
  if a.status ≠ .stopped then ({ a with connClosed := true }, none)
  else (a, some .attendantIsAlreadyStopped)

/-- Errors `Send` can return: the lifecycle "stopped" error, or
whatever the marshaler's `Send` returned. -/
inductive SendError
  | stopped
  | wrapper (e : GoError)
  deriving DecidableEq

/-- `Attendant.Send`: when not Stopped, delegates to the marshaler
(whose outcome is the `wrapperResult` input; the Boolean records that
the delegation happened); when Stopped, fails with the "stopped"
error and has no other side effect. -/
def Attendant.Send (a : Attendant) (command : String) (args : List Val)
    (kwargs : List (String × Val)) (wrapperResult : Option GoError) :
    Attendant × Option SendError × Bool :=
  if a.status ≠ .stopped then (a, wrapperResult.map SendError.wrapper, true)
  else (a, some SendError.stopped, false)

/-- `Attendant.Throttle`: the current throttle duration. -/
def Attendant.Throttle (a : Attendant) : Int :=
  a.throttle

/-- `Attendant.SetThrottle`: negative throttle durations are negated
to positive; nothing else changes (`throttleFrom` is not reset). -/
def Attendant.SetThrottle (a : Attendant) (throttle : Int) : Attendant :=
  { a with throttle := if throttle < 0 then -throttle else throttle }

/-- One successful `Receive()` during the read loop: the decoded
message together with the instant `time.Now()` returns at that
iteration. -/
structure RecvMsg where
  message : Message
  now : Int
  deriving DecidableEq

/-- A value sent on one of the attendant's event channels. -/
inductive Emitted
  | startedEvent
  | messageEvent (m : Message)
  | throttledEvent (m : Message) (instant : Int) (lapse : Int)
  | stoppedEvent (stopType : AttendantStopType) (error : Option GoError)
  deriving DecidableEq

/-- One observable action of the read loop, in program order. -/
inductive LoopAction
  | setStatus (s : AttendantStatus)
  | closeConn
  | emit (e : Emitted)
  deriving DecidableEq

/-- The read loop's handling of one successfully received message
(the `else` branch of the loop body): throttle 0 publishes at once;
a sentinel `throttleFrom` admits and records the instant; otherwise
the lapse since `throttleFrom` is compared with the throttle, either
admitting (and advancing `throttleFrom`) or emitting a throttled
event carrying the message, the instant and the lapse. -/
def handleMessage (a : Attendant) (r : RecvMsg) : Attendant × Emitted :=
  if a.throttle = 0 then
    (a, .messageEvent r.message)
  else
    match a.throttleFrom with
    | none => ({ a with throttleFrom := some r.now }, .messageEvent r.message)
    | some tf =>
      if a.throttle ≤ r.now - tf then
        ({ a with throttleFrom := some r.now }, .messageEvent r.message)
      else
        (a, .throttledEvent r.message r.now (r.now - tf))

/-- Iterating `handleMessage` over the successful receives of a read
loop, collecting the emitted events. -/
def processMessages (a : Attendant) : List RecvMsg → Attendant × List LoopAction
  | [] => (a, [])
  | r :: rest =>
    let step := handleMessage a r
    let further := processMessages step.1 rest
    (further.1, .emit step.2 :: further.2)

/-- The read loop's classification of the receive error that breaks
the loop: closed-socket errors are Local; otherwise a graceful flag
means Remote; anything else is Abnormal, keeping the error. -/
def classifyStop (err : GoError) (graceful : Bool) : AttendantStopType × Option GoError :=
  if isClosedSocketError err then (.localStop, none)
  else if graceful then (.remoteStop, none)
  else (.abnormalStop, some err)

/-- The read loop's epilogue after `break Loop` (lines 577-582 of
`attendant.go`): assign status Stopped; close the connection unless
the stop is Local; finally send the stopped event. -/
def finishStep (a : Attendant) (err : GoError) (graceful : Bool) :
    Attendant × List LoopAction :=
  if (classifyStop err graceful).1 = .localStop then
    ({ a with status := .stopped },
     [.setStatus .stopped,
      .emit (.stoppedEvent (classifyStop err graceful).1 (classifyStop err graceful).2)])
  else
    ({ a with status := .stopped, connClosed := true },
     [.setStatus .stopped, .closeConn,
      .emit (.stoppedEvent (classifyStop err graceful).1 (classifyStop err graceful).2)])

/-- The read loop's entry (lines 512-518): a guard returning at once
unless the status is New, then the assignment to Running and the
started event. -/
def loopEntry (a : Attendant) : Option (Attendant × List LoopAction) :=
  if a.status = .new then
    some ({ a with status := .running },
          [.setStatus .running, .emit .startedEvent])
  else none

/-- The whole read loop, driven by the trace of successful receives
followed by the terminating receive error (with its graceful flag). -/
def Attendant.readLoop (a : Attendant) (msgs : List RecvMsg)
    (err : GoError) (graceful : Bool) : Attendant × List LoopAction :=
  match loopEntry a with
  | none => (a, [])
  | some entry =>
    let mid := processMessages entry.1 msgs
    let fin := finishStep mid.1 err graceful
    (fin.1, entry.2 ++ mid.2 ++ fin.2)

/-- One iteration of the dispatcher's accept loop, as seen at its
`select`: either the quit signal is pending, or the loop falls into
`default` and the blocking `Accept()` returns a connection or an
error. -/
inductive AcceptOutcome
  | quitSignal
  | acceptOk (connId : Nat)
  | acceptErr (e : GoError)
  deriving DecidableEq

/-- An observable action of the dispatcher goroutine, in program
order (the server wires all four callbacks, so none is nil). -/
inductive DispatcherAction
  | onStart
  | onAcceptSuccess (connId : Nat)
  | onAcceptError (e : GoError)
  | onStop
  | closeListener
  | clearListener
  deriving DecidableEq

/-- The dispatcher's `Loop` (lines 113-134 of the final variant): a
pending quit signal breaks the loop, after which the stop callback
runs, the listener is closed and the reference cleared; an accept
error invokes the accept-error callback and the loop continues; an
accepted connection invokes the accept-success callback and the loop
continues.  The Boolean records whether the loop terminated within
the given iteration trace. -/
def acceptLoop : List AcceptOutcome → List DispatcherAction × Bool
  | [] => ([], false)
  | .quitSignal :: _ => ([.onStop, .closeListener, .clearListener], true)
  | .acceptOk c :: rest =>
    let further := acceptLoop rest
    (.onAcceptSuccess c :: further.1, further.2)
  | .acceptErr e :: rest =>
    let further := acceptLoop rest
    (.onAcceptError e :: further.1, further.2)

/-- The dispatcher goroutine: the start callback once, then the
accept loop. -/
def dispatcherRun (outcomes : List AcceptOutcome) : List DispatcherAction × Bool :=
  let looped := acceptLoop outcomes
  (.onStart :: looped.1, looped.2)

/-- An event consumed by the server's fan-in goroutine from one of
the two intermediate channels, or the quit signal.  Attendants are
identified by `Nat` identities (Go pointer identity, the key of the
`Attendants` map). -/
inductive FanInEvent
  | started (aid : Nat)
  | stopped (aid : Nat) (stopType : AttendantStopType) (error : Option GoError)
  | quitSignal
  deriving DecidableEq

/-- One republication by the fan-in goroutine on a server-level
buffered channel. -/
inductive FanInOutput
  | republishStarted (aid : Nat)
  | republishStopped (aid : Nat) (stopType : AttendantStopType) (error : Option GoError)
  deriving DecidableEq

/-- Go map assignment `attendants[a] = true` on the identity set. -/
def attendantsInsert (s : List Nat) (x : Nat) : List Nat :=
  if x ∈ s then s else x :: s

/-- Go `delete(attendants, a)` on the identity set. -/
def attendantsRemove (s : List Nat) (x : Nat) : List Nat :=
  s.filter (fun y => y ≠ x)

/-- One `select` round of the fan-in goroutine: a started event
inserts the attendant and republishes it; a stopped event removes the
attendant and republishes it; the quit signal does nothing (the loop
breaks). -/
def fanInStep (s : List Nat) : FanInEvent → List Nat × List FanInOutput
  | .started x => (attendantsInsert s x, [.republishStarted x])
  | .stopped x st e => (attendantsRemove s x, [.republishStopped x st e])
  | .quitSignal => (s, [])

/-- The fan-in goroutine run over a consumption trace: it processes
events until the quit signal breaks the loop, threading the attendant
set (of which it is the single writer) and collecting the
republished events. -/
def fanInRun (s : List Nat) : List FanInEvent → List Nat × List FanInOutput
  | [] => (s, [])
  | .quitSignal :: _ => (s, [])
  | .started x :: rest =>
    let further := fanInRun (attendantsInsert s x) rest
    (further.1, .republishStarted x :: further.2)
  | .stopped x st e :: rest =>
    let further := fanInRun (attendantsRemove s x) rest
    (further.1, .republishStopped x st e :: further.2)

/-- The state of a `BasicServer` relevant to `Stop`: whether a closer
is retained, and the tracked attendants (here by value, so that the
broadcast `Stop` can be applied to each). -/
structure BasicServer where
  hasCloser : Bool
  attendants : List Attendant
  deriving DecidableEq

/-- An observable action of `BasicServer.Stop`, in program order. -/
inductive ServerAction
  | invokeCloser
  | attendantStop (result : Option ChasquiError)
  | clearAttendants
  | clearCloser
  deriving DecidableEq

/-- What `BasicServer.Stop` produces: the new server state, the
returned error, the action trace, and the post-`Stop` states of the
previously tracked attendants (which survive the set clearing). -/
structure ServerStopResult where
  server : BasicServer
  error : Option ChasquiError
  actions : List ServerAction
  stoppedAttendants : List Attendant
  deriving DecidableEq

/-- `BasicServer.Stop` (`server.go` lines 66-79): with no retained
closer it fails with the "not listening" error; otherwise it invokes
the closer, enumerates the tracked attendants calling `Stop` on each
(discarding each individual error), clears the attendant set, clears
the closer, and returns no error. -/
def BasicServer.Stop (s : BasicServer) : ServerStopResult :=
  if s.hasCloser then
    { server := { hasCloser := false, attendants := [] }
      error := none
      actions := .invokeCloser ::
        (s.attendants.map fun a => ServerAction.attendantStop (Attendant.Stop a).2)
        ++ [.clearAttendants, .clearCloser]
      stoppedAttendants := s.attendants.map fun a => (Attendant.Stop a).1 }
  else
    { server := s
      error := some .dispatcherNotListening
      actions := []
      stoppedAttendants := [] }

/-- Recognizer for the stopped-event emission among loop actions. -/
def isStoppedEmit : LoopAction → Bool
  | .emit (.stoppedEvent _ _) => true
  | _ => false

/- Helper lemmas about the message-handling phase of the read loop. -/

theorem handleMessage_status (a : Attendant) (r : RecvMsg) :
    (handleMessage a r).1.status = a.status := by
  unfold handleMessage
  split
  · rfl
  · split
    · rfl
    · split <;> rfl

theorem handleMessage_connClosed (a : Attendant) (r : RecvMsg) :
    (handleMessage a r).1.connClosed = a.connClosed := by
  unfold handleMessage
  split
  · rfl
  · split
    · rfl
    · split <;> rfl

theorem handleMessage_throttle (a : Attendant) (r : RecvMsg) :
    (handleMessage a r).1.throttle = a.throttle := by
  unfold handleMessage
  split
  · rfl
  · split
    · rfl
    · split <;> rfl

theorem handleMessage_not_stopped_emit (a : Attendant) (r : RecvMsg) :
    isStoppedEmit (.emit (handleMessage a r).2) = false := by
  unfold handleMessage
  split
  · rfl
  · split
    · rfl
    · split <;> rfl

theorem processMessages_status (msgs : List RecvMsg) (a : Attendant) :
    (processMessages a msgs).1.status = a.status := by
  induction msgs generalizing a with
  | nil => rfl
  | cons r rest ih =>
    show (processMessages (handleMessage a r).1 rest).1.status = a.status
    rw [ih, handleMessage_status]

theorem processMessages_connClosed (msgs : List RecvMsg) (a : Attendant) :
    (processMessages a msgs).1.connClosed = a.connClosed := by
  induction msgs generalizing a with
  | nil => rfl
  | cons r rest ih =>
    show (processMessages (handleMessage a r).1 rest).1.connClosed = a.connClosed
    rw [ih, handleMessage_connClosed]

theorem processMessages_throttle (msgs : List RecvMsg) (a : Attendant) :
    (processMessages a msgs).1.throttle = a.throttle := by
  induction msgs generalizing a with
  | nil => rfl
  | cons r rest ih =>
    show (processMessages (handleMessage a r).1 rest).1.throttle = a.throttle
    rw [ih, handleMessage_throttle]

theorem processMessages_filter_stopped (msgs : List RecvMsg) (a : Attendant) :
    (processMessages a msgs).2.filter isStoppedEmit = [] := by
  induction msgs generalizing a with
  | nil => rfl
  | cons r rest ih =>
    show List.filter isStoppedEmit
      (.emit (handleMessage a r).2 :: (processMessages (handleMessage a r).1 rest).2) = []
    rw [List.filter_cons_of_neg, ih]
    simp [handleMessage_not_stopped_emit]

theorem finishStep_status (a : Attendant) (err : GoError) (graceful : Bool) :
    (finishStep a err graceful).1.status = .stopped := by
  unfold finishStep
  split <;> rfl

theorem finishStep_filter_stopped (a : Attendant) (err : GoError) (graceful : Bool) :
    (finishStep a err graceful).2.filter isStoppedEmit
      = [.emit (.stoppedEvent (classifyStop err graceful).1 (classifyStop err graceful).2)] := by
  unfold finishStep
  split <;> simp [isStoppedEmit]

/-- C1: when a read loop that started from the New status terminates
on a receive error, exactly one stopped event is emitted; the stop
type is Local exactly on a closed-socket error, Remote exactly on a
graceful flag (without a closed-socket error) and Abnormal otherwise;
the event's error is non-nil exactly in the Abnormal case, where it
is the underlying receive error; and the final status is Stopped
(the loop function, being total, has then exited). -/
theorem c1_read_loop_stop_classification (a : Attendant) (msgs : List RecvMsg)
    (err : GoError) (graceful : Bool) (h : a.status = .new) :
    ((a.readLoop msgs err graceful).2).filter isStoppedEmit
      = [.emit (.stoppedEvent (classifyStop err graceful).1 (classifyStop err graceful).2)] ∧
    (a.readLoop msgs err graceful).1.status = .stopped ∧
    ((classifyStop err graceful).1 = .localStop ↔ isClosedSocketError err = true) ∧
    ((classifyStop err graceful).1 = .remoteStop ↔
      (isClosedSocketError err = false ∧ graceful = true)) ∧
    ((classifyStop err graceful).1 = .abnormalStop ↔
      (isClosedSocketError err = false ∧ graceful = false)) ∧
    ((classifyStop err graceful).2 = none ↔ (classifyStop err graceful).1 ≠ .abnormalStop) ∧
    ((classifyStop err graceful).1 = .abnormalStop → (classifyStop err graceful).2 = some err) := by
  have hload : a.readLoop msgs err graceful
      = (let mid := processMessages { a with status := .running } msgs
         ((finishStep mid.1 err graceful).1,
          [.setStatus .running, .emit .startedEvent] ++ mid.2 ++ (finishStep mid.1 err graceful).2)) := by
    unfold Attendant.readLoop loopEntry
    simp [h]
  refine ⟨?_, ?_, ?_, ?_, ?_, ?_, ?_⟩
  · rw [hload]
    simp only [List.filter_append]
    rw [processMessages_filter_stopped, finishStep_filter_stopped]
    simp [isStoppedEmit]
  · rw [hload]
    exact finishStep_status _ err graceful
  · unfold classifyStop
    by_cases hc : isClosedSocketError err = true
    · simp [hc]
    · simp only [Bool.not_eq_true] at hc
      by_cases hg : graceful = true <;> simp [hc, hg]
  · unfold classifyStop
    by_cases hc : isClosedSocketError err = true
    · simp [hc]
    · simp only [Bool.not_eq_true] at hc
      by_cases hg : graceful = true <;> simp [hc, hg]
  · unfold classifyStop
    by_cases hc : isClosedSocketError err = true
    · simp [hc]
    · simp only [Bool.not_eq_true] at hc
      by_cases hg : graceful = true <;> simp [hc, hg]
  · unfold classifyStop
    by_cases hc : isClosedSocketError err = true
    · simp [hc]
    · simp only [Bool.not_eq_true] at hc
      by_cases hg : graceful = true <;> simp [hc, hg]
  · unfold classifyStop
    by_cases hc : isClosedSocketError err = true
    · simp [hc]
    · simp only [Bool.not_eq_true] at hc
      by_cases hg : graceful = true <;> simp [hc, hg]

theorem c1_witness :
    (((NewAttendant 0).readLoop [] (.other 3) false).2).filter isStoppedEmit
      = [.emit (.stoppedEvent (classifyStop (.other 3) false).1
                              (classifyStop (.other 3) false).2)] ∧
    ((NewAttendant 0).readLoop [] (.other 3) false).1.status = .stopped :=
  ⟨(c1_read_loop_stop_classification (NewAttendant 0) [] (.other 3) false (by decide)).1,
   (c1_read_loop_stop_classification (NewAttendant 0) [] (.other 3) false (by decide)).2.1⟩

/-- The throttle admission policy in the specification's own words
(spec §4.2): with throttle T > 0, a message at instant t is admitted
iff t minus the instant of the last admitted message is at least T
(advancing that instant to t), the first-ever message always being
admitted; a non-admitted message is reported as a throttled event
carrying the message, the current instant, and the elapsed lapse.
Stated as its own function so the implementation's message handling
can be proved to refine it. -/
def specThrottleEvents (T : Int) (last : Option Int) : List RecvMsg → List LoopAction
  | [] => []
  | r :: rest =>
    match last with
    | none => .emit (.messageEvent r.message) :: specThrottleEvents T (some r.now) rest
    | some l =>
      if T ≤ r.now - l then
        .emit (.messageEvent r.message) :: specThrottleEvents T (some r.now) rest
      else
        .emit (.throttledEvent r.message r.now (r.now - l)) ::
          specThrottleEvents T (some l) rest

/-- The instant of the last admitted message after a message
sequence, in the specification's words (companion to
`specThrottleEvents`). -/
def specThrottleLast (T : Int) (last : Option Int) : List RecvMsg → Option Int
  | [] => last
  | r :: rest =>
    match last with
    | none => specThrottleLast T (some r.now) rest
    | some l =>
      if T ≤ r.now - l then specThrottleLast T (some r.now) rest
      else specThrottleLast T (some l) rest

theorem processMessages_spec_events (msgs : List RecvMsg) :
    ∀ a : Attendant, 0 < a.throttle →
      (processMessages a msgs).2 = specThrottleEvents a.throttle a.throttleFrom msgs := by
  induction msgs with
  | nil => intro a _; rfl
  | cons r rest ih =>
    intro a h
    have hne : ¬a.throttle = 0 := by omega
    show .emit (handleMessage a r).2 :: (processMessages (handleMessage a r).1 rest).2
      = specThrottleEvents a.throttle a.throttleFrom (r :: rest)
    cases hTf : a.throttleFrom with
    | none =>
      have hm : handleMessage a r
          = ({ a with throttleFrom := some r.now }, .messageEvent r.message) := by
        unfold handleMessage
        simp [hne, hTf]
      rw [hm]
      have hr := ih { a with throttleFrom := some r.now } h
      simp [specThrottleEvents, hr]
    | some last =>
      by_cases hif : a.throttle ≤ r.now - last
      · have hm : handleMessage a r
            = ({ a with throttleFrom := some r.now }, .messageEvent r.message) := by
          unfold handleMessage
          simp [hne, hTf, hif]
        rw [hm]
        have hr := ih { a with throttleFrom := some r.now } h
        simp [specThrottleEvents, hif, hr]
      · have hm : handleMessage a r
            = (a, .throttledEvent r.message r.now (r.now - last)) := by
          unfold handleMessage
          simp [hne, hTf, hif]
        rw [hm]
        have hr := ih a h
        rw [hTf] at hr
        simp [specThrottleEvents, hif, hr]

theorem processMessages_spec_last (msgs : List RecvMsg) :
    ∀ a : Attendant, 0 < a.throttle →
      (processMessages a msgs).1.throttleFrom
        = specThrottleLast a.throttle a.throttleFrom msgs := by
  induction msgs with
  | nil => intro a _; rfl
  | cons r rest ih =>
    intro a h
    have hne : ¬a.throttle = 0 := by omega
    show (processMessages (handleMessage a r).1 rest).1.throttleFrom
      = specThrottleLast a.throttle a.throttleFrom (r :: rest)
    cases hTf : a.throttleFrom with
    | none =>
      have hm : handleMessage a r
          = ({ a with throttleFrom := some r.now }, .messageEvent r.message) := by
        unfold handleMessage
        simp [hne, hTf]
      rw [hm]
      have hr := ih { a with throttleFrom := some r.now } h
      simp [specThrottleLast, hr]
    | some last =>
      by_cases hif : a.throttle ≤ r.now - last
      · have hm : handleMessage a r
            = ({ a with throttleFrom := some r.now }, .messageEvent r.message) := by
          unfold handleMessage
          simp [hne, hTf, hif]
        rw [hm]
        have hr := ih { a with throttleFrom := some r.now } h
        simp [specThrottleLast, hif, hr]
      · have hm : handleMessage a r
            = (a, .throttledEvent r.message r.now (r.now - last)) := by
          unfold handleMessage
          simp [hne, hTf, hif]
        rw [hm]
        have hr := ih a h
        rw [hTf] at hr
        simp [specThrottleLast, hif, hr]

/-- C2: with throttle T > 0, the read loop's handling of a sequence
of successfully received messages produces exactly the event trace
the specification's admission policy prescribes (a message is
admitted iff its instant minus the instant of the last admitted
message is at least T, the first-ever message always being admitted,
non-admitted messages going to the Throttled channel with message,
instant and lapse), the recorded last-admission instant matches the
policy's, and throttling neither changes the status nor closes the
connection. -/
theorem c2_throttle_invariant (a : Attendant) (msgs : List RecvMsg) (h : 0 < a.throttle) :
    (processMessages a msgs).2 = specThrottleEvents a.throttle a.throttleFrom msgs ∧
    (processMessages a msgs).1.throttleFrom = specThrottleLast a.throttle a.throttleFrom msgs ∧
    (processMessages a msgs).1.status = a.status ∧
    (processMessages a msgs).1.connClosed = a.connClosed :=
  ⟨processMessages_spec_events msgs a h, processMessages_spec_last msgs a h,
   processMessages_status msgs a, processMessages_connClosed msgs a⟩

theorem c2_witness :
    (processMessages (NewAttendant 2)
        [⟨⟨"A", [], []⟩, 10⟩, ⟨⟨"B", [], []⟩, 11⟩, ⟨⟨"C", [], []⟩, 13⟩]).2
      = specThrottleEvents 2 none
        [⟨⟨"A", [], []⟩, 10⟩, ⟨⟨"B", [], []⟩, 11⟩, ⟨⟨"C", [], []⟩, 13⟩] ∧
    (processMessages (NewAttendant 2)
        [⟨⟨"A", [], []⟩, 10⟩, ⟨⟨"B", [], []⟩, 11⟩, ⟨⟨"C", [], []⟩, 13⟩]).1.throttleFrom
      = specThrottleLast 2 none
        [⟨⟨"A", [], []⟩, 10⟩, ⟨⟨"B", [], []⟩, 11⟩, ⟨⟨"C", [], []⟩, 13⟩] :=
  ⟨(c2_throttle_invariant (NewAttendant 2) _ (by decide)).1,
   (c2_throttle_invariant (NewAttendant 2) _ (by decide)).2.1⟩

/-- C9: for every duration D > 0, `SetThrottle(-D)` and
`SetThrottle(D)` leave the attendant in identical states (and hence
give identical subsequent throttling behavior, the functions being
pure), and `Throttle()` then returns D. -/
theorem c9_negative_throttle_normalization (a : Attendant) (d : Int) (h : 0 < d) :
    a.SetThrottle (-d) = a.SetThrottle d ∧
    (a.SetThrottle d).Throttle = d ∧
    (a.SetThrottle (-d)).Throttle = d := by
  unfold Attendant.SetThrottle Attendant.Throttle
  have h1 : -d < 0 := by omega
  have h2 : ¬d < 0 := by omega
  simp [h1, h2]

theorem c9_witness :
    (NewAttendant 0).SetThrottle (-3) = (NewAttendant 0).SetThrottle 3 ∧
    ((NewAttendant 0).SetThrottle 3).Throttle = 3 ∧
    ((NewAttendant 0).SetThrottle (-3)).Throttle = 3 :=
  c9_negative_throttle_normalization (NewAttendant 0) 3 (by decide)

/-- C10: in the read loop's termination epilogue, a non-Local stop
closes the owned connection, and the close precedes the stopped-event
emission in the action trace; a Local stop skips the close and leaves
the connection flag untouched. -/
theorem c10_close_before_stopped_event (a : Attendant) (err : GoError) (graceful : Bool) :
    ((classifyStop err graceful).1 = .localStop →
      (finishStep a err graceful).2
        = [.setStatus .stopped, .emit (.stoppedEvent .localStop none)] ∧
      (finishStep a err graceful).1.connClosed = a.connClosed) ∧
    ((classifyStop err graceful).1 ≠ .localStop →
      (finishStep a err graceful).2
        = [.setStatus .stopped, .closeConn,
           .emit (.stoppedEvent (classifyStop err graceful).1 (classifyStop err graceful).2)] ∧
      (finishStep a err graceful).1.connClosed = true) := by
  unfold finishStep classifyStop
  by_cases hc : isClosedSocketError err = true
  · simp [hc]
  · simp only [Bool.not_eq_true] at hc
    by_cases hg : graceful = true <;> simp [hc, hg]

theorem c10_witness :
    ((finishStep (NewAttendant 0) (.opError .netClosing) false).2
      = [.setStatus .stopped, .emit (.stoppedEvent .localStop none)] ∧
     (finishStep (NewAttendant 0) (.opError .netClosing) false).1.connClosed
      = (NewAttendant 0).connClosed) ∧
    ((finishStep (NewAttendant 0) (.other 7) false).2
      = [.setStatus .stopped, .closeConn,
         .emit (.stoppedEvent (classifyStop (.other 7) false).1
                              (classifyStop (.other 7) false).2)] ∧
     (finishStep (NewAttendant 0) (.other 7) false).1.connClosed = true) :=
  ⟨(c10_close_before_stopped_event (NewAttendant 0) (.opError .netClosing) false).1 (by decide),
   (c10_close_before_stopped_event (NewAttendant 0) (.other 7) false).2 (by decide)⟩

/-- C8 counterexample: an attendant admits a message at instant 100
under throttle 5 (so `throttleFrom` becomes 100), then the throttle
is disabled with `SetThrottle 0` and re-enabled with `SetThrottle 5`.
The first message after re-enabling, at instant 102, is throttled,
not admitted: `SetThrottle` never resets `throttleFrom`, so the claim
that the first message after re-enabling is always admitted fails. -/
theorem c8_counterexample :
    (handleMessage
      (Attendant.SetThrottle
        (Attendant.SetThrottle
          (handleMessage { NewAttendant 5 with status := .running }
            ⟨⟨"PING", [], []⟩, 100⟩).1 0) 5)
      ⟨⟨"PING", [], []⟩, 102⟩).2
      = .throttledEvent ⟨"PING", [], []⟩ 102 2 := by decide

/-- C8 (amended): with a nonzero throttle, the first message received
while `throttleFrom` is still the zero-value sentinel (no message has
ever been admitted under a nonzero throttle) is admitted to the
Message channel and sets `throttleFrom` to the current instant;
`SetThrottle` leaves `throttleFrom` unchanged, so re-enabling the
throttle does not restore this always-admit state. -/
theorem c8_first_message_admitted (a : Attendant) (r : RecvMsg)
    (h : a.throttle ≠ 0) (h2 : a.throttleFrom = none) :
    handleMessage a r = ({ a with throttleFrom := some r.now }, .messageEvent r.message) ∧
    ∀ t, (a.SetThrottle t).throttleFrom = a.throttleFrom := by
  constructor
  · unfold handleMessage
    simp [h, h2]
  · intro t
    rfl

theorem c8_witness :
    handleMessage (NewAttendant 5) ⟨⟨"PING", [], []⟩, 100⟩
      = ({ NewAttendant 5 with throttleFrom := some 100 }, .messageEvent ⟨"PING", [], []⟩) :=
  (c8_first_message_admitted (NewAttendant 5) ⟨⟨"PING", [], []⟩, 100⟩
    (by decide) (by decide)).1

/-- C3: on an attendant that is not Stopped, `Stop()` returns no
error, marks the owned connection closed, and itself leaves the
status alone; the read loop, unblocked by the closed-socket receive
error this close surfaces, then assigns status Stopped and emits the
stopped event classified Local (with no error), a tag distinct from
Remote and Abnormal. -/
theorem c3_stop_is_local (a : Attendant) (h : a.status ≠ .stopped) :
    (a.Stop).2 = none ∧
    (a.Stop).1 = { a with connClosed := true } ∧
    (a.Stop).1.status = a.status ∧
    ∀ err graceful, isClosedSocketError err = true →
      (finishStep (a.Stop).1 err graceful).1.status = .stopped ∧
      (finishStep (a.Stop).1 err graceful).2
        = [.setStatus .stopped, .emit (.stoppedEvent .localStop none)] ∧
      AttendantStopType.localStop ≠ .remoteStop ∧
      AttendantStopType.localStop ≠ .abnormalStop := by
  refine ⟨?_, ?_, ?_, ?_⟩
  · unfold Attendant.Stop
    simp [h]
  · unfold Attendant.Stop
    simp [h]
  · unfold Attendant.Stop
    simp [h]
  · intro err graceful hcl
    unfold finishStep classifyStop
    simp [hcl]

theorem c3_witness :
    ((NewAttendant 0).Stop).2 = none ∧
    (finishStep ((NewAttendant 0).Stop).1 (.opError .netClosing) false).1.status = .stopped ∧
    (finishStep ((NewAttendant 0).Stop).1 (.opError .netClosing) false).2
      = [.setStatus .stopped, .emit (.stoppedEvent .localStop none)] := by
  have h := c3_stop_is_local (NewAttendant 0) (by decide)
  exact ⟨h.1, (h.2.2.2 (.opError .netClosing) false (by decide)).1,
         (h.2.2.2 (.opError .netClosing) false (by decide)).2.1⟩

/-- C4: `Start()` succeeds exactly once from New (and the spawned
read loop's entry moves the status to Running, after which a second
`Start()` fails with the "not new" error without changing state);
`Stop()` on a Stopped attendant fails with the "already stopped"
error without changing state; `Send` on a Stopped attendant fails
with the "stopped" error, changes no state and performs no
delegation to the marshaler. -/
theorem c4_lifecycle_state_errors (a : Attendant) :
    (a.status = .new →
      (a.Start).1 = a ∧ (a.Start).2.1 = true ∧ (a.Start).2.2 = none ∧
      ∃ e, loopEntry a = some e ∧ e.1.status = .running ∧
        (e.1.Start).1 = e.1 ∧ (e.1.Start).2.1 = false ∧
        (e.1.Start).2.2 = some .attendantIsNotNew) ∧
    (a.status ≠ .new → a.Start = (a, false, some .attendantIsNotNew)) ∧
    (a.status = .stopped →
      a.Stop = (a, some .attendantIsAlreadyStopped) ∧
      ∀ command args kwargs wres,
        a.Send command args kwargs wres = (a, some .stopped, false)) := by
  refine ⟨?_, ?_, ?_⟩
  · intro h
    refine ⟨?_, ?_, ?_,
      ⟨({ a with status := .running }, [.setStatus .running, .emit .startedEvent]), ?_, rfl, ?_, ?_, ?_⟩⟩
    · unfold Attendant.Start; simp [h]
    · unfold Attendant.Start; simp [h]
    · unfold Attendant.Start; simp [h]
    · unfold loopEntry; simp [h]
    · unfold Attendant.Start; simp
    · unfold Attendant.Start; simp
    · unfold Attendant.Start; simp
  · intro h
    unfold Attendant.Start
    simp [h]
  · intro h
    constructor
    · unfold Attendant.Stop
      simp [h]
    · intro command args kwargs wres
      unfold Attendant.Send
      simp [h]

theorem c4_witness :
    ((NewAttendant 0).Start).2.2 = none ∧
    ({ NewAttendant 0 with status := AttendantStatus.running } : Attendant).Start
      = ({ NewAttendant 0 with status := AttendantStatus.running }, false,
         some .attendantIsNotNew) ∧
    ({ NewAttendant 0 with status := AttendantStatus.stopped } : Attendant).Stop
      = ({ NewAttendant 0 with status := AttendantStatus.stopped },
         some .attendantIsAlreadyStopped) ∧
    ({ NewAttendant 0 with status := AttendantStatus.stopped } : Attendant).Send
        "PING" [] [] none
      = ({ NewAttendant 0 with status := AttendantStatus.stopped },
         some .stopped, false) := by
  refine ⟨?_, ?_, ?_, ?_⟩
  · exact ((c4_lifecycle_state_errors (NewAttendant 0)).1 (by decide)).2.2.1
  · exact (c4_lifecycle_state_errors
      { NewAttendant 0 with status := AttendantStatus.running }).2.1 (by decide)
  · exact ((c4_lifecycle_state_errors
      { NewAttendant 0 with status := AttendantStatus.stopped }).2.2 (by decide)).1
  · exact ((c4_lifecycle_state_errors
      { NewAttendant 0 with status := AttendantStatus.stopped }).2.2 (by decide)).2
      "PING" [] [] none

/-- C6: in the accept loop, an accept failure invokes the
accept-error callback and lets the loop continue unchanged; the loop
terminates exactly when the pending quit signal (sent by the closer
returned from `Run`) is observed between iterations; and on
termination the stop callback runs exactly once, followed by closing
the listener and clearing the listener reference. -/
theorem c6_accept_loop_termination (outcomes : List AcceptOutcome) :
    ((acceptLoop outcomes).2 = true ↔ .quitSignal ∈ outcomes) ∧
    (∀ e rest, acceptLoop (.acceptErr e :: rest)
      = (.onAcceptError e :: (acceptLoop rest).1, (acceptLoop rest).2)) ∧
    ((acceptLoop outcomes).1.count .onStop
      = if AcceptOutcome.quitSignal ∈ outcomes then 1 else 0) ∧
    (AcceptOutcome.quitSignal ∈ outcomes →
      ∃ pre, (acceptLoop outcomes).1 = pre ++ [.onStop, .closeListener, .clearListener] ∧
        DispatcherAction.onStop ∉ pre) := by
  refine ⟨?_, fun e rest => rfl, ?_, ?_⟩
  · induction outcomes with
    | nil => simp [acceptLoop]
    | cons o rest ih =>
      cases o with
      | quitSignal => simp [acceptLoop]
      | acceptOk c =>
        show (acceptLoop rest).2 = true ↔ _ ∈ _ :: rest
        simp [ih]
      | acceptErr e =>
        show (acceptLoop rest).2 = true ↔ _ ∈ _ :: rest
        simp [ih]
  · induction outcomes with
    | nil => simp [acceptLoop]
    | cons o rest ih =>
      cases o with
      | quitSignal => simp [acceptLoop]
      | acceptOk c =>
        show List.count _ (.onAcceptSuccess c :: (acceptLoop rest).1) = _
        rw [List.count_cons]
        simp [ih]
      | acceptErr e =>
        show List.count _ (.onAcceptError e :: (acceptLoop rest).1) = _
        rw [List.count_cons]
        simp [ih]
  · induction outcomes with
    | nil => simp
    | cons o rest ih =>
      cases o with
      | quitSignal =>
        intro _
        exact ⟨[], rfl, by simp⟩
      | acceptOk c =>
        intro hq
        have hq2 : AcceptOutcome.quitSignal ∈ rest := by
          simpa using hq
        obtain ⟨pre, hp, hn⟩ := ih hq2
        refine ⟨.onAcceptSuccess c :: pre, ?_, ?_⟩
        · show DispatcherAction.onAcceptSuccess c :: (acceptLoop rest).1 = _
          rw [hp]
          rfl
        · simp [hn]
      | acceptErr e =>
        intro hq
        have hq2 : AcceptOutcome.quitSignal ∈ rest := by
          simpa using hq
        obtain ⟨pre, hp, hn⟩ := ih hq2
        refine ⟨.onAcceptError e :: pre, ?_, ?_⟩
        · show DispatcherAction.onAcceptError e :: (acceptLoop rest).1 = _
          rw [hp]
          rfl
        · simp [hn]

theorem c6_witness :
    ((acceptLoop [.acceptErr (.other 1), .acceptOk 4, .quitSignal]).2 = true ↔
      .quitSignal ∈ [AcceptOutcome.acceptErr (.other 1), .acceptOk 4, .quitSignal]) ∧
    ((acceptLoop [.acceptErr (.other 1), .acceptOk 4, .quitSignal]).1.count .onStop
      = if AcceptOutcome.quitSignal
            ∈ [AcceptOutcome.acceptErr (.other 1), .acceptOk 4, .quitSignal]
        then 1 else 0) ∧
    ((acceptLoop [.acceptErr (.other 1), .acceptOk 4, .quitSignal]).1
      = [.onAcceptError (.other 1), .onAcceptSuccess 4]
          ++ [.onStop, .closeListener, .clearListener]) := by
  have h := c6_accept_loop_termination [.acceptErr (.other 1), .acceptOk 4, .quitSignal]
  exact ⟨h.1, h.2.2.1, by decide⟩

/-- C7: `Stop()` on the server fails with the "not listening" error
exactly when no closer is retained, in which case nothing changes;
otherwise it returns no error and its action trace invokes the closer
first, then one `Stop` per tracked attendant (each individual result
discarded), then clears the attendant set and finally the closer; the
post-`Stop` attendant states are exactly `Attendant.Stop` applied to
each tracked attendant. -/
theorem c7_server_stop (s : BasicServer) :
    ((s.Stop).error = some .dispatcherNotListening ↔ s.hasCloser = false) ∧
    (s.hasCloser = false → s.Stop = ⟨s, some .dispatcherNotListening, [], []⟩) ∧
    (s.hasCloser = true →
      (s.Stop).error = none ∧
      (s.Stop).server.attendants = [] ∧
      (s.Stop).server.hasCloser = false ∧
      (s.Stop).actions
        = .invokeCloser ::
          (s.attendants.map fun a => ServerAction.attendantStop (Attendant.Stop a).2)
          ++ [.clearAttendants, .clearCloser] ∧
      (s.Stop).stoppedAttendants = s.attendants.map fun a => (Attendant.Stop a).1) := by
  by_cases hc : s.hasCloser = true
  · refine ⟨?_, ?_, ?_⟩
    · unfold BasicServer.Stop
      simp [hc]
    · intro h
      rw [hc] at h
      cases h
    · intro _
      unfold BasicServer.Stop
      simp [hc]
  · simp only [Bool.not_eq_true] at hc
    refine ⟨?_, ?_, ?_⟩
    · unfold BasicServer.Stop
      simp [hc]
    · intro _
      unfold BasicServer.Stop
      simp [hc]
    · intro h
      rw [hc] at h
      cases h

theorem c7_witness :
    ((BasicServer.Stop ⟨false, [NewAttendant 0]⟩).error
        = some .dispatcherNotListening ↔ (false : Bool) = false) ∧
    BasicServer.Stop ⟨false, [NewAttendant 0]⟩
      = ⟨⟨false, [NewAttendant 0]⟩, some .dispatcherNotListening, [], []⟩ ∧
    (BasicServer.Stop ⟨true, [NewAttendant 0, NewAttendant 3]⟩).error = none ∧
    (BasicServer.Stop ⟨true, [NewAttendant 0, NewAttendant 3]⟩).server.attendants = [] ∧
    (BasicServer.Stop ⟨true, [NewAttendant 0, NewAttendant 3]⟩).actions
      = .invokeCloser ::
        ([NewAttendant 0, NewAttendant 3].map
          fun a => ServerAction.attendantStop (Attendant.Stop a).2)
        ++ [.clearAttendants, .clearCloser] := by
  have h1 := c7_server_stop ⟨false, [NewAttendant 0]⟩
  have h2 := c7_server_stop ⟨true, [NewAttendant 0, NewAttendant 3]⟩
  exact ⟨h1.1, h1.2.1 rfl, (h2.2.2 rfl).1, (h2.2.2 rfl).2.1, (h2.2.2 rfl).2.2.2.1⟩

/-- Recognizer: the event is the started event of attendant `x`. -/
def isStartedOf (x : Nat) : FanInEvent → Bool
  | .started y => decide (y = x)
  | _ => false

/-- Recognizer: the event is the stopped event of attendant `x`. -/
def isStoppedOf (x : Nat) : FanInEvent → Bool
  | .stopped y _ _ => decide (y = x)
  | _ => false

/-- Replays, for a single attendant identity, the membership bit the
fan-in goroutine's set updates induce over a consumption trace
(stopping at the quit signal, as the loop does). -/
def memAfter (x : Nat) : List FanInEvent → Bool → Bool
  | [], acc => acc
  | .quitSignal :: _, acc => acc
  | .started y :: rest, acc => memAfter x rest (if y = x then true else acc)
  | .stopped y _ _ :: rest, acc => memAfter x rest (if y = x then false else acc)

/-- Well-formedness of a consumption trace for attendant `x`: no
started event of `x` occurs after a stopped event of `x`.  Real
traces satisfy this: each attendant sends its started event before
its stopped event (program order in the read loop), and does so once. -/
def noStartedAfterStopped (x : Nat) : List FanInEvent → Bool
  | [] => true
  | e :: rest =>
    if isStoppedOf x e then
      rest.all (fun e2 => !isStartedOf x e2) && noStartedAfterStopped x rest
    else
      noStartedAfterStopped x rest

theorem mem_attendantsInsert (s : List Nat) (x y : Nat) :
    x ∈ attendantsInsert s y ↔ (x = y ∨ x ∈ s) := by
  unfold attendantsInsert
  split
  · rename_i hy
    constructor
    · exact Or.inr
    · rintro (rfl | hx)
      · exact hy
      · exact hx
  · simp [List.mem_cons]

theorem mem_attendantsRemove (s : List Nat) (x y : Nat) :
    x ∈ attendantsRemove s y ↔ (x ∈ s ∧ ¬x = y) := by
  unfold attendantsRemove
  simp [List.mem_filter]

theorem memAfter_false_of_no_started (x : Nat) :
    ∀ tr : List FanInEvent, (∀ e ∈ tr, isStartedOf x e = false) →
      memAfter x tr false = false := by
  intro tr
  induction tr with
  | nil => intro _; rfl
  | cons e rest ih =>
    intro h
    cases e with
    | quitSignal => rfl
    | started y =>
      have hy : decide (y = x) = false := h _ (List.mem_cons_self _ _)
      have hyne : ¬y = x := by simpa using hy
      show memAfter x rest (if y = x then true else false) = false
      rw [if_neg hyne]
      exact ih fun e he => h e (List.mem_cons_of_mem _ he)
    | stopped y st er =>
      show memAfter x rest (if y = x then false else false) = false
      have hacc : (if y = x then false else false) = false := by split <;> rfl
      rw [hacc]
      exact ih fun e he => h e (List.mem_cons_of_mem _ he)

theorem memAfter_true_iff_no_stopped (x : Nat) :
    ∀ tr : List FanInEvent, FanInEvent.quitSignal ∉ tr →
      noStartedAfterStopped x tr = true →
      (memAfter x tr true = true ↔ ∀ e ∈ tr, isStoppedOf x e = false) := by
  intro tr
  induction tr with
  | nil => intro _ _; simp [memAfter]
  | cons e rest ih =>
    intro hq hw
    have hqr : FanInEvent.quitSignal ∉ rest := fun h => hq (List.mem_cons_of_mem _ h)
    cases e with
    | quitSignal => exact absurd (List.mem_cons_self _ _) hq
    | started y =>
      have hw2 : noStartedAfterStopped x rest = true := by
        unfold noStartedAfterStopped at hw
        simpa [isStoppedOf] using hw
      show memAfter x rest (if y = x then true else true) = true ↔ _
      have hacc : (if y = x then true else true) = true := by split <;> rfl
      rw [hacc, ih hqr hw2]
      constructor
      · intro h e he
        rcases List.mem_cons.mp he with rfl | he2
        · rfl
        · exact h e he2
      · intro h e he
        exact h e (List.mem_cons_of_mem _ he)
    | stopped y st er =>
      by_cases hxy : y = x
      · have hparts : rest.all (fun e2 => !isStartedOf x e2) = true ∧
            noStartedAfterStopped x rest = true := by
          unfold noStartedAfterStopped at hw
          simpa [isStoppedOf, hxy] using hw
        show memAfter x rest (if y = x then false else true) = true ↔ _
        rw [if_pos hxy]
        have hB : memAfter x rest false = false := by
          apply memAfter_false_of_no_started
          intro e he
          have := List.all_eq_true.mp hparts.1 e he
          simpa using this
        rw [hB]
        constructor
        · intro h
          cases h
        · intro h
          have := h _ (List.mem_cons_self _ _)
          simp [isStoppedOf, hxy] at this
      · have hw2 : noStartedAfterStopped x rest = true := by
          unfold noStartedAfterStopped at hw
          simpa [isStoppedOf, hxy] using hw
        show memAfter x rest (if y = x then false else true) = true ↔ _
        rw [if_neg hxy, ih hqr hw2]
        constructor
        · intro h e he
          rcases List.mem_cons.mp he with rfl | he2
          · simp [isStoppedOf, hxy]
          · exact h e he2
        · intro h e he
          exact h e (List.mem_cons_of_mem _ he)

theorem memAfter_false_iff (x : Nat) :
    ∀ tr : List FanInEvent, FanInEvent.quitSignal ∉ tr →
      noStartedAfterStopped x tr = true →
      (memAfter x tr false = true ↔
        ((∃ e ∈ tr, isStartedOf x e = true) ∧ ∀ e ∈ tr, isStoppedOf x e = false)) := by
  intro tr
  induction tr with
  | nil => intro _ _; simp [memAfter]
  | cons e rest ih =>
    intro hq hw
    have hqr : FanInEvent.quitSignal ∉ rest := fun h => hq (List.mem_cons_of_mem _ h)
    cases e with
    | quitSignal => exact absurd (List.mem_cons_self _ _) hq
    | started y =>
      have hw2 : noStartedAfterStopped x rest = true := by
        unfold noStartedAfterStopped at hw
        simpa [isStoppedOf] using hw
      by_cases hxy : y = x
      · show memAfter x rest (if y = x then true else false) = true ↔ _
        rw [if_pos hxy, memAfter_true_iff_no_stopped x rest hqr hw2]
        constructor
        · intro h
          refine ⟨⟨.started y, List.mem_cons_self _ _, by simp [isStartedOf, hxy]⟩, ?_⟩
          intro e he
          rcases List.mem_cons.mp he with rfl | he2
          · rfl
          · exact h e he2
        · rintro ⟨_, h2⟩ e he
          exact h2 e (List.mem_cons_of_mem _ he)
      · show memAfter x rest (if y = x then true else false) = true ↔ _
        rw [if_neg hxy, ih hqr hw2]
        constructor
        · rintro ⟨⟨e1, he1, hs1⟩, h2⟩
          refine ⟨⟨e1, List.mem_cons_of_mem _ he1, hs1⟩, ?_⟩
          intro e he
          rcases List.mem_cons.mp he with rfl | he2
          · rfl
          · exact h2 e he2
        · rintro ⟨⟨e1, he1, hs1⟩, h2⟩
          refine ⟨⟨e1, ?_, hs1⟩, fun e he => h2 e (List.mem_cons_of_mem _ he)⟩
          rcases List.mem_cons.mp he1 with rfl | he2
          · simp [isStartedOf, hxy] at hs1
          · exact he2
    | stopped y st er =>
      by_cases hxy : y = x
      · have hparts : rest.all (fun e2 => !isStartedOf x e2) = true ∧
            noStartedAfterStopped x rest = true := by
          unfold noStartedAfterStopped at hw
          simpa [isStoppedOf, hxy] using hw
        show memAfter x rest (if y = x then false else false) = true ↔ _
        have hacc : (if y = x then false else false) = false := by split <;> rfl
        rw [hacc]
        have hB : memAfter x rest false = false := by
          apply memAfter_false_of_no_started
          intro e he
          have := List.all_eq_true.mp hparts.1 e he
          simpa using this
        rw [hB]
        constructor
        · intro h
          cases h
        · rintro ⟨_, h2⟩
          have := h2 _ (List.mem_cons_self _ _)
          simp [isStoppedOf, hxy] at this
      · have hw2 : noStartedAfterStopped x rest = true := by
          unfold noStartedAfterStopped at hw
          simpa [isStoppedOf, hxy] using hw
        show memAfter x rest (if y = x then false else false) = true ↔ _
        have hacc : (if y = x then false else false) = false := by split <;> rfl
        rw [hacc, ih hqr hw2]
        constructor
        · rintro ⟨⟨e1, he1, hs1⟩, h2⟩
          refine ⟨⟨e1, List.mem_cons_of_mem _ he1, hs1⟩, ?_⟩
          intro e he
          rcases List.mem_cons.mp he with rfl | he2
          · simp [isStoppedOf, hxy]
          · exact h2 e he2
        · rintro ⟨⟨e1, he1, hs1⟩, h2⟩
          refine ⟨⟨e1, ?_, hs1⟩, fun e he => h2 e (List.mem_cons_of_mem _ he)⟩
          rcases List.mem_cons.mp he1 with rfl | he2
          · simp [isStartedOf] at hs1
          · exact he2

theorem fanInRun_mem (x : Nat) :
    ∀ (tr : List FanInEvent) (s : List Nat),
      (x ∈ (fanInRun s tr).1 ↔ memAfter x tr (decide (x ∈ s)) = true) := by
  intro tr
  induction tr with
  | nil =>
    intro s
    simp [fanInRun, memAfter]
  | cons e rest ih =>
    intro s
    cases e with
    | quitSignal =>
      simp [fanInRun, memAfter]
    | started y =>
      have hacc : decide (x ∈ attendantsInsert s y)
          = (if y = x then true else decide (x ∈ s)) := by
        by_cases hxy : y = x
        · subst hxy
          simp [mem_attendantsInsert]
        · rw [if_neg hxy, decide_eq_decide]
          rw [mem_attendantsInsert]
          constructor
          · rintro (h1 | h1)
            · exact absurd h1.symm hxy
            · exact h1
          · exact Or.inr
      show x ∈ (fanInRun (attendantsInsert s y) rest).1 ↔
        memAfter x rest (if y = x then true else decide (x ∈ s)) = true
      rw [ih (attendantsInsert s y), hacc]
    | stopped y st er =>
      have hacc : decide (x ∈ attendantsRemove s y)
          = (if y = x then false else decide (x ∈ s)) := by
        by_cases hxy : y = x
        · subst hxy
          simp [mem_attendantsRemove]
        · rw [if_neg hxy, decide_eq_decide]
          rw [mem_attendantsRemove]
          constructor
          · intro h1
            exact h1.1
          · intro h1
            exact ⟨h1, fun hc => hxy hc.symm⟩
      show x ∈ (fanInRun (attendantsRemove s y) rest).1 ↔
        memAfter x rest (if y = x then false else decide (x ∈ s)) = true
      rw [ih (attendantsRemove s y), hacc]

/-- C5: over any consumption trace of the fan-in goroutine (the
single writer of the attendant set) with no quit signal and
respecting the program-order guarantee that an attendant's started
event precedes its stopped event, the final attendant set contains
exactly the attendants whose started event was consumed and whose
stopped event was not; moreover each consumed started event inserts
the attendant and republishes on the server's AttendantStarted
channel, each consumed stopped event removes the attendant and
republishes on AttendantStopped, and the quit signal breaks the
loop. -/
theorem c5_fan_in_set_membership (tr : List FanInEvent) (x : Nat)
    (hq : FanInEvent.quitSignal ∉ tr)
    (hws : noStartedAfterStopped x tr = true) :
    (x ∈ (fanInRun [] tr).1 ↔
      ((∃ e ∈ tr, isStartedOf x e = true) ∧ ∀ e ∈ tr, isStoppedOf x e = false)) ∧
    (∀ s y, fanInStep s (.started y) = (attendantsInsert s y, [.republishStarted y])) ∧
    (∀ s y st er, fanInStep s (.stopped y st er)
      = (attendantsRemove s y, [.republishStopped y st er])) ∧
    (∀ s rest y, fanInRun s (.started y :: rest)
      = ((fanInRun (attendantsInsert s y) rest).1,
         .republishStarted y :: (fanInRun (attendantsInsert s y) rest).2)) ∧
    (∀ s rest y st er, fanInRun s (.stopped y st er :: rest)
      = ((fanInRun (attendantsRemove s y) rest).1,
         .republishStopped y st er :: (fanInRun (attendantsRemove s y) rest).2)) ∧
    (∀ s rest, fanInRun s (.quitSignal :: rest) = (s, [])) := by
  refine ⟨?_, fun s y => rfl, fun s y st er => rfl, fun s rest y => rfl,
    fun s rest y st er => rfl, fun s rest => rfl⟩
  rw [fanInRun_mem x tr []]
  have h0 : decide (x ∈ ([] : List Nat)) = false := by simp
  rw [h0]
  exact memAfter_false_iff x tr hq hws

theorem c5_witness :
    2 ∈ (fanInRun [] [.started 1, .started 2, .stopped 1 .remoteStop none]).1 :=
  (c5_fan_in_set_membership [.started 1, .started 2, .stopped 1 .remoteStop none] 2
      (by decide) (by decide)).1.mpr
    ⟨⟨.started 2, by decide, by decide⟩, by decide⟩

end Chasqui
